import Mathlib

/-!
Verification of the forge-container image builder and container runtime
against its natural-language specification.

The Rust sources are shallowly embedded: pure string/byte manipulation
(SHA-256 cache keys, the build-file parser, path handling) is translated
into executable Lean functions, and the stateful build loop of
`ImageBuilder::build` is translated into explicit state passing over a
`BuildState`, with the external side effects (downloading a base image,
running a command in a chroot, tarring the scratch rootfs) abstracted as
an environment of functions, since the bookkeeping claims hold for any
behaviour of those effects.
-/

namespace Forge

/-! ## Bytes and SHA-256 (the `sha2` crate behaviour used by the sources) -/

/-- Bytes are natural numbers; every byte produced below is `< 256`. -/
abbrev Bytes := List Nat

/-- The modulus for 32-bit machine words. -/
def M32 : Nat := 2 ^ 32

/-- Right rotation of a 32-bit word. -/
def rotr32 (n x : Nat) : Nat := ((x >>> n) ||| ((x <<< (32 - n)) % M32)) % M32

/-- UTF-8 encoding of a single character, as Rust's `str::as_bytes` sees it. -/
def utf8EncodeChar (c : Char) : Bytes :=
  let n := c.toNat
  if n < 0x80 then [n]
  else if n < 0x800 then [0xc0 + n / 64, 0x80 + n % 64]
  else if n < 0x10000 then [0xe0 + n / 4096, 0x80 + (n / 64) % 64, 0x80 + n % 64]
  else [0xf0 + n / 262144, 0x80 + (n / 4096) % 64, 0x80 + (n / 64) % 64, 0x80 + n % 64]

/-- The UTF-8 bytes of a string (Rust `String::as_bytes`). -/
def strBytes (s : String) : Bytes := (s.data.map utf8EncodeChar).flatten

/-- SHA-256 round constants, eight rounds at a time. -/
def K32 : List Nat :=
  [0x428a2f98, 0x71374491, 0xb5c0fbcf, 0xe9b5dba5, 0x3956c25b, 0x59f111f1, 0x923f82a4, 0xab1c5ed5]
    ++ [0xd807aa98, 0x12835b01, 0x243185be, 0x550c7dc3, 0x72be5d74, 0x80deb1fe, 0x9bdc06a7, 0xc19bf174]
    ++ [0xe49b69c1, 0xefbe4786, 0x0fc19dc6, 0x240ca1cc, 0x2de92c6f, 0x4a7484aa, 0x5cb0a9dc, 0x76f988da]
    ++ [0x983e5152, 0xa831c66d, 0xb00327c8, 0xbf597fc7, 0xc6e00bf3, 0xd5a79147, 0x06ca6351, 0x14292967]
    ++ [0x27b70a85, 0x2e1b2138, 0x4d2c6dfc, 0x53380d13, 0x650a7354, 0x766a0abb, 0x81c2c92e, 0x92722c85]
    ++ [0xa2bfe8a1, 0xa81a664b, 0xc24b8b70, 0xc76c51a3, 0xd192e819, 0xd6990624, 0xf40e3585, 0x106aa070]
    ++ [0x19a4c116, 0x1e376c08, 0x2748774c, 0x34b0bcb5, 0x391c0cb3, 0x4ed8aa4a, 0x5b9cca4f, 0x682e6ff3]
    ++ [0x748f82ee, 0x78a5636f, 0x84c87814, 0x8cc70208, 0x90befffa, 0xa4506ceb, 0xbef9a3f7, 0xc67178f2]

/-- Working state of the SHA-256 compression function. -/
structure H8 where
  a : Nat
  b : Nat
  c : Nat
  d : Nat
  e : Nat
  f : Nat
  g : Nat
  h : Nat
  deriving Repr, DecidableEq

/-- SHA-256 initial hash value. -/
def initH : H8 :=
  { a := 0x6a09e667, b := 0xbb67ae85, c := 0x3c6ef372, d := 0xa54ff53a,
    e := 0x510e527f, f := 0x9b05688c, g := 0x1f83d9ab, h := 0x5be0cd19 }

/-- Lowercase sigma-0 of the message schedule. -/
def smallSigma0 (x : Nat) : Nat := (rotr32 7 x) ^^^ (rotr32 18 x) ^^^ (x >>> 3)

/-- Lowercase sigma-1 of the message schedule. -/
def smallSigma1 (x : Nat) : Nat := (rotr32 17 x) ^^^ (rotr32 19 x) ^^^ (x >>> 10)

/-- Uppercase sigma-0 of the compression function. -/
def bigSigma0 (x : Nat) : Nat := (rotr32 2 x) ^^^ (rotr32 13 x) ^^^ (rotr32 22 x)

/-- Uppercase sigma-1 of the compression function. -/
def bigSigma1 (x : Nat) : Nat := (rotr32 6 x) ^^^ (rotr32 11 x) ^^^ (rotr32 25 x)

/-- Big-endian bytes of a natural number, `k` bytes wide. -/
def natToBytesBE (k n : Nat) : Bytes :=
  (List.range k).map (fun i => (n >>> (8 * (k - 1 - i))) % 256)

/-- SHA-256 padding: append `0x80`, zeros, and the 64-bit big-endian bit length. -/
def padBytes (msg : Bytes) : Bytes :=
  let len := msg.length
  let padZeros := (64 + 55 - (len % 64)) % 64
  msg ++ [0x80] ++ List.replicate padZeros 0 ++ natToBytesBE 8 (8 * len)

/-- Split a byte list into 64-byte blocks; the fuel bounds the number of blocks. -/
def blocksOf64Aux (fuel : Nat) (l : Bytes) : List Bytes :=
  match fuel with
  | 0 => []
  | fuel + 1 => if l.length = 0 then [] else l.take 64 :: blocksOf64Aux fuel (l.drop 64)

/-- Split a byte list into 64-byte blocks. -/
def blocksOf64 (l : Bytes) : List Bytes := blocksOf64Aux l.length l

/-- Parse bytes as big-endian 32-bit words. -/
def bytesToWords : Bytes → List Nat
  | b0 :: b1 :: b2 :: b3 :: rest =>
      ((b0 % 256) * 16777216 + (b1 % 256) * 65536 + (b2 % 256) * 256 + b3 % 256)
        :: bytesToWords rest
  | _ => []

/-- Extend the 16-word message schedule by the given number of extra words. -/
def extendW (w : List Nat) : Nat → List Nat
  | 0 => w
  | n + 1 =>
      let i := w.length
      let x := (smallSigma1 (w.getD (i - 2) 0) + w.getD (i - 7) 0
                 + smallSigma0 (w.getD (i - 15) 0) + w.getD (i - 16) 0) % M32
      extendW (w ++ [x]) n

/-- One round of the SHA-256 compression function. -/
def shaRound (s : H8) (kw : Nat × Nat) : H8 :=
  let ch := (s.e &&& s.f) ^^^ ((s.e ^^^ 0xffffffff) &&& s.g)
  let maj := (s.a &&& s.b) ^^^ (s.a &&& s.c) ^^^ (s.b &&& s.c)
  let t1 := (s.h + bigSigma1 s.e + ch + kw.1 + kw.2) % M32
  let t2 := (bigSigma0 s.a + maj) % M32
  { a := (t1 + t2) % M32, b := s.a, c := s.b, d := s.c,
    e := (s.d + t1) % M32, f := s.e, g := s.f, h := s.g }

/-- Process one 64-byte block. -/
def processBlock (s : H8) (block : Bytes) : H8 :=
  let w := extendW (bytesToWords block) 48
  let r := (K32.zip w).foldl shaRound s
  { a := (s.a + r.a) % M32, b := (s.b + r.b) % M32, c := (s.c + r.c) % M32,
    d := (s.d + r.d) % M32, e := (s.e + r.e) % M32, f := (s.f + r.f) % M32,
    g := (s.g + r.g) % M32, h := (s.h + r.h) % M32 }

/-- SHA-256 of a byte sequence, as 32 bytes. -/
def sha256 (msg : Bytes) : Bytes :=
  let fin := (blocksOf64 (padBytes msg)).foldl processBlock initH
  ([fin.a, fin.b, fin.c, fin.d, fin.e, fin.f, fin.g, fin.h].map (natToBytesBE 4)).flatten

/-- Hex digit characters. -/
def hexChar (n : Nat) : Char := "0123456789abcdef".data.getD n (Char.ofNat 48)

/-- Lowercase hex encoding of bytes (the `hex::encode` of the sources). -/
def hexEncode (bs : Bytes) : String :=
  String.mk ((bs.map (fun b => [hexChar (b / 16), hexChar (b % 16)])).flatten)

/-! ## String primitives

Lean core string functions such as `String.splitOn` are defined by
well-founded recursion and do not reduce inside the kernel, so the Rust
string primitives the sources rely on are modelled directly on character
lists by structural recursion.  The Rust originals are Unicode-aware; the
build files and paths involved are ASCII, where the behaviour coincides. -/

/-- Split at every character satisfying `p`; adjacent separators give empty pieces. -/
def splitOnPred (p : Char → Bool) : List Char → List (List Char)
  | [] => [[]]
  | c :: cs =>
      match splitOnPred p cs with
      | [] => [[c]]
      | h :: t => if p c then [] :: h :: t else (c :: h) :: t

/-- Split at every occurrence of one separator character. -/
def splitOnChar (sep : Char) (l : List Char) : List (List Char) :=
  splitOnPred (· = sep) l

/-- Strip leading and trailing whitespace (Rust `str::trim`). -/
def trimChars (l : List Char) : List Char :=
  ((l.dropWhile Char.isWhitespace).reverse.dropWhile Char.isWhitespace).reverse

/-- Rust `str::trim` on strings. -/
def strTrim (s : String) : String := String.mk (trimChars s.data)

/-- Split a string on one separator character (Rust `str::split(sep)`). -/
def strSplitOnChar (sep : Char) (s : String) : List String :=
  (splitOnChar sep s.data).map String.mk

/-- Whether a string starts with the given character. -/
def strStartsWithChar (c : Char) (s : String) : Bool :=
  match s.data with
  | [] => false
  | a :: _ => a = c

/-- Whether a string ends with the given character. -/
def strEndsWithChar (c : Char) (s : String) : Bool :=
  match s.data.getLast? with
  | some a => a = c
  | none => false

/-- ASCII uppercase of one character. -/
def asciiUpperChar (c : Char) : Char :=
  if 97 ≤ c.toNat ∧ c.toNat ≤ 122 then Char.ofNat (c.toNat - 32) else c

/-- Rust `str::to_uppercase` (ASCII fragment). -/
def strToUpper (s : String) : String := String.mk (s.data.map asciiUpperChar)

/-- Interleave a separator between list elements. -/
def intercalateChars (sep : List Char) : List (List Char) → List Char
  | [] => []
  | [x] => x
  | x :: xs => x ++ sep ++ intercalateChars sep xs

/-- Interleave a separator string between strings. -/
def strIntercalate (sep : String) (l : List String) : String :=
  String.mk (intercalateChars sep.data (l.map String.data))

/-! ## The build-file parser (`src/forgefile.rs`) -/

/-- The `Instruction` enum of `forgefile.rs`. -/
inductive Instruction where
  | from_ (image : String)
  | copy (src : String) (dest : String)
  | run (command : String)
  | workdir (path : String)
  | env (key : String) (value : String)
  | entrypoint (args : List String)
  deriving Repr, DecidableEq

/-- Split a character list at the first occurrence of `sep`, if any. -/
def splitFirst (sep : Char) : List Char → Option (List Char × List Char)
  | [] => none
  | c :: cs =>
      if c = sep then some ([], cs)
      else
        match splitFirst sep cs with
        | none => none
        | some (a, b) => some (c :: a, b)

/-- Rust `str::splitn(2, sep)`: at most two pieces, the second keeps later separators. -/
def splitn2 (sep : Char) (s : String) : List String :=
  match splitFirst sep s.data with
  | none => [s]
  | some (a, b) => [String.mk a, String.mk b]

/-- Rust `str::split_whitespace`: split on whitespace runs, discarding empty pieces. -/
def rustSplitWhitespace (s : String) : List String :=
  ((splitOnPred Char.isWhitespace s.data).map String.mk).filter (· ≠ "")

/-- Rust `str::trim_matches(m)`: strip every leading and trailing occurrence of `m`. -/
def trimMatchesChar (m : Char) (s : String) : String :=
  String.mk (((s.data.dropWhile (· = m)).reverse.dropWhile (· = m)).reverse)

/-- The `parse_json_array` helper of `forgefile.rs`. -/
def parseJsonArray (s : String) : Except String (List String) :=
  let s := strTrim s
  if strStartsWithChar (Char.ofNat 91) s && strEndsWithChar (Char.ofNat 93) s then
    let inner := String.mk ((s.data.drop 1).dropLast)
    Except.ok (((strSplitOnChar (Char.ofNat 44) inner).map
      (fun p => trimMatchesChar (Char.ofNat 34) (strTrim p))).filter (· ≠ ""))
  else
    Except.error "ENTRYPOINT requires JSON array format"

/-- The `Forgefile::parse_command_line` match, given the two pieces of a line. -/
def parseCommandLine (cmdRaw args : String) : Except String (Option Instruction) :=
  match strToUpper cmdRaw with
  | "FROM" => Except.ok (some (Instruction.from_ args))
  | "COPY" =>
      let copyParts := rustSplitWhitespace args
      if copyParts.length < 2 then
        Except.error "COPY requires source and destination"
      else
        Except.ok (some (Instruction.copy (copyParts.getD 0 "") (copyParts.getD 1 "")))
  | "RUN" => Except.ok (some (Instruction.run args))
  | "WORKDIR" => Except.ok (some (Instruction.workdir args))
  | "ENV" =>
      match splitn2 (Char.ofNat 61) args with
      | [k, v] => Except.ok (some (Instruction.env k v))
      | _ => Except.error "ENV requires KEY=VALUE format"
  | "ENTRYPOINT" =>
      match parseJsonArray args with
      | Except.ok a => Except.ok (some (Instruction.entrypoint a))
      | Except.error e => Except.error e
  | _ => Except.ok none

/-- Rust `str::lines`: split on newlines, strip a trailing carriage return per line. -/
def rustLines (s : String) : List String :=
  match s.data with
  | [] => []
  | l =>
      let pieces := (splitOnChar (Char.ofNat 10) l).map
        (fun p => if p.getLast? = some (Char.ofNat 13) then p.dropLast else p)
      let pieces := if l.getLast? = some (Char.ofNat 10) then pieces.dropLast else pieces
      pieces.map String.mk

/-- The `Forgefile` struct: parsed instructions plus the build-context directory. -/
structure Forgefile where
  instructions : List Instruction
  contextDir : String
  deriving Repr, DecidableEq

/-- One iteration of the line loop in `Forgefile::parse`.  A malformed line makes
`parse_command_line` return an error, but the `if let Ok(Some(_))` in the source
silently discards it, so the line is skipped rather than failing the parse. -/
def parseLineInto (acc : List Instruction) (line : String) : List Instruction :=
  let line := strTrim line
  if line.data = [] || strStartsWithChar (Char.ofNat 35) line then acc
  else
    match splitn2 (Char.ofNat 32) line with
    | [cmd, args] =>
        match parseCommandLine cmd args with
        | Except.ok (some i) => acc ++ [i]
        | _ => acc
    | _ => acc

/-- The body of `Forgefile::parse`, over the file content and the context
directory (the source derives the latter as the parent of the file path). -/
def Forgefile.parseContent (content : String) (contextDir : String) : Forgefile :=
  { instructions := (rustLines content).foldl parseLineInto []
    contextDir := contextDir }

/-! ## The image store (`src/image.rs`)

The store directory is modelled field by field: `layers` is the content of
`layers/<digest>` keyed by digest, `cacheIndex` is the `cache_index.json`
mapping, and `manifests` / `configs` log the files written under
`manifests/<name>/<tag>` and `manifests/<name>/<tag>.config` in save order. -/

/-- The `ImageManifest` struct of `image.rs`. -/
structure ImageManifest where
  name : String
  tag : String
  layers : List String
  deriving Repr, DecidableEq

/-- The `ImageConfig` struct of `image.rs`. -/
structure ImageConfig where
  entrypoint : List String
  env : List String
  workingDir : String
  deriving Repr, DecidableEq

/-- The observable state of an `ImageStore` directory. -/
structure ImageStore where
  layers : String → Option Bytes
  cacheIndex : String → Option String
  manifests : List ImageManifest
  configs : List (String × String × ImageConfig)

/-- The op `ImageStore::layer_exists`: the file `layers/<digest>` exists. -/
def ImageStore.layerExists (st : ImageStore) (digest : String) : Bool :=
  (st.layers digest).isSome

/-- The op `ImageStore::get_cached_layer`: look the key up in the cache index. -/
def ImageStore.getCachedLayer (st : ImageStore) (k : String) : Option String :=
  st.cacheIndex k

/-- The op `ImageStore::save_layer`: digest the bytes, copy them to `layers/<digest>`,
return the digest. -/
def ImageStore.saveLayer (st : ImageStore) (data : Bytes) : ImageStore × String :=
  ({ st with layers := fun q =>
      if q = "sha256:" ++ hexEncode (sha256 data) then some data else st.layers q },
   "sha256:" ++ hexEncode (sha256 data))

/-- The op `ImageStore::cache_layer`: insert a key-to-digest entry into the index. -/
def ImageStore.cacheLayer (st : ImageStore) (k d : String) : ImageStore :=
  { st with cacheIndex := fun q => if q = k then some d else st.cacheIndex q }

/-- The op `ImageStore::save_manifest`: write the manifest JSON under `manifests/`. -/
def ImageStore.saveManifest (st : ImageStore) (m : ImageManifest) : ImageStore :=
  { st with manifests := st.manifests ++ [m] }

/-- The config write at the end of `ImageBuilder::build`. -/
def ImageStore.saveConfig (st : ImageStore) (name tag : String) (c : ImageConfig) : ImageStore :=
  { st with configs := st.configs ++ [(name, tag, c)] }

/-! ## The builder (`src/imagebuilder.rs`) -/

/-- The hash `ImageBuilder::compute_cache_key`: hash the previous key bytes followed by
the instruction descriptor bytes, and prefix `cache:`. -/
def computeCacheKey (prevKey instruction : String) : String :=
  "cache:" ++ hexEncode (sha256 (strBytes prevKey ++ strBytes instruction))

/-- Rust `Path::join` on string paths: an absolute right operand replaces the base. -/
def rustJoin (base p : String) : String :=
  if strStartsWithChar (Char.ofNat 47) p then p else base ++ "/" ++ p

/-- Rust `str::trim_start_matches("/")`: drop every leading slash. -/
def trimStartMatchesSlash (s : String) : String :=
  String.mk (s.data.dropWhile (· = Char.ofNat 47))

/-- Minimal lowercase hex rendering of a natural number. -/
def hexDigitsAux (fuel n : Nat) : List Char :=
  match fuel with
  | 0 => []
  | fuel + 1 => if n = 0 then [] else hexDigitsAux fuel (n / 16) ++ [hexChar (n % 16)]

/-- Lowercase hex of a natural number, at least one digit. -/
def hexOfNat (n : Nat) : List Char :=
  if n = 0 then [hexChar 0] else hexDigitsAux 8 n

/-- Rust `Debug` escaping of one character inside a string literal. -/
def rustDebugChar (c : Char) : List Char :=
  if c = Char.ofNat 34 then [Char.ofNat 92, Char.ofNat 34]
  else if c = Char.ofNat 92 then [Char.ofNat 92, Char.ofNat 92]
  else if c = Char.ofNat 10 then [Char.ofNat 92, Char.ofNat 110]
  else if c = Char.ofNat 13 then [Char.ofNat 92, Char.ofNat 114]
  else if c = Char.ofNat 9 then [Char.ofNat 92, Char.ofNat 116]
  else if c.toNat < 32 then
    [Char.ofNat 92, Char.ofNat 117, Char.ofNat 123] ++ hexOfNat c.toNat ++ [Char.ofNat 125]
  else [c]

/-- Rust `Debug` rendering of one string: quoted and escaped. -/
def rustDebugString (s : String) : String :=
  String.mk ([Char.ofNat 34] ++ (s.data.map rustDebugChar).flatten ++ [Char.ofNat 34])

/-- Rust `Debug` rendering of a `Vec<String>`, as `format!` with `\x7b:?\x7d` prints it. -/
def rustDebugList (args : List String) : String :=
  "[" ++ strIntercalate ", " (args.map rustDebugString) ++ "]"

/-- The external effects of a build, abstracted: downloading a base image,
running a command in the chroot, copying into the rootfs, hashing a context
path, tarring the rootfs into layer bytes, and extracting a layer tarball.
`Option` results model the fallible operations that abort the build. -/
structure BuildEnv (R : Type) where
  pullBase : String → R → Option R
  runCmd : String → R → Option R
  copyOp : String → String → R → Option R
  hashPath : String → String
  tarRootfs : R → Bytes
  extractLayer : Bytes → R → R

/-- The state threaded through the instruction loop of `ImageBuilder::build`. -/
structure BuildState (R : Type) where
  store : ImageStore
  rootfs : R
  layers : List String
  prevKey : String
  cacheValid : Bool
  config : ImageConfig

/-- The per-instruction descriptor string fed to `compute_cache_key`. -/
def instrDescriptor {R : Type} (e : BuildEnv R) (ctx : String) : Instruction → String
  | Instruction.from_ image => "FROM:" ++ image
  | Instruction.copy src dest =>
      "COPY:" ++ src ++ ":" ++ dest ++ ":" ++ e.hashPath (rustJoin ctx src)
  | Instruction.run command => "RUN:" ++ command
  | Instruction.workdir path => "WORKDIR:" ++ path
  | Instruction.env k v => "ENV:" ++ k ++ "=" ++ v
  | Instruction.entrypoint args => "ENTRYPOINT:" ++ rustDebugList args

/-- The nested cache test of the source: a hit needs `cache_valid`, an index
entry for the key, and an existing layer file for the indexed digest. -/
def cacheHit {R : Type} (st : BuildState R) (k : String) : Option String :=
  if st.cacheValid then
    match st.store.getCachedLayer k with
    | some d => if st.store.layerExists d then some d else none
    | none => none
  else none

/-- The shared shape of the FROM / COPY / RUN arms of the build loop: on a hit
extract the cached layer, on a miss clear `cache_valid`, run the effect, tar
the rootfs into a new layer, save and index it. -/
def execLayered {R : Type} (e : BuildEnv R) (st : BuildState R) (k : String)
    (effect : R → Option R) : Option (BuildState R) :=
  match cacheHit st k with
  | some d =>
      some { st with
        rootfs := e.extractLayer ((st.store.layers d).getD []) st.rootfs
        layers := st.layers ++ [d]
        prevKey := k }
  | none =>
      match effect st.rootfs with
      | none => none
      | some rf =>
          some { st with
            cacheValid := false
            rootfs := rf
            store := (st.store.saveLayer (e.tarRootfs rf)).1.cacheLayer k
                       (st.store.saveLayer (e.tarRootfs rf)).2
            layers := st.layers ++ [(st.store.saveLayer (e.tarRootfs rf)).2]
            prevKey := k }

/-- One arm of the `match instruction` in `ImageBuilder::build`. -/
def stepInstr {R : Type} (e : BuildEnv R) (ctx : String) (st : BuildState R) :
    Instruction → Option (BuildState R)
  | Instruction.from_ image =>
      execLayered e st (computeCacheKey st.prevKey ("FROM:" ++ image)) (e.pullBase image)
  | Instruction.copy src dest =>
      let srcPath := rustJoin ctx src
      execLayered e st
        (computeCacheKey st.prevKey ("COPY:" ++ src ++ ":" ++ dest ++ ":" ++ e.hashPath srcPath))
        (e.copyOp srcPath dest)
  | Instruction.run command =>
      execLayered e st (computeCacheKey st.prevKey ("RUN:" ++ command)) (e.runCmd command)
  | Instruction.workdir path =>
      some { st with
        config := { st.config with workingDir := path }
        prevKey := computeCacheKey st.prevKey ("WORKDIR:" ++ path) }
  | Instruction.env k v =>
      some { st with
        config := { st.config with env := st.config.env ++ [k ++ "=" ++ v] }
        prevKey := computeCacheKey st.prevKey ("ENV:" ++ k ++ "=" ++ v) }
  | Instruction.entrypoint args =>
      some { st with
        config := { st.config with entrypoint := args }
        prevKey := computeCacheKey st.prevKey ("ENTRYPOINT:" ++ rustDebugList args) }

/-- The instruction loop of `ImageBuilder::build`. -/
def runInstrs {R : Type} (e : BuildEnv R) (ctx : String) :
    BuildState R → List Instruction → Option (BuildState R)
  | st, [] => some st
  | st, i :: rest =>
      match stepInstr e ctx st i with
      | none => none
      | some st1 => runInstrs e ctx st1 rest

/-- The initial `ImageConfig` of a build. -/
def initConfig : ImageConfig :=
  { entrypoint := [], env := ["PATH=/usr/local/bin:/usr/bin:/bin"], workingDir := "/" }

/-- The initial build state: empty layer list, key chain seeded with `base`,
cache valid. -/
def initState {R : Type} (store : ImageStore) (rootfs0 : R) : BuildState R :=
  { store := store, rootfs := rootfs0, layers := [], prevKey := "base",
    cacheValid := true, config := initConfig }

/-- The whole `ImageBuilder::build`: parse result in, manifest and config out. -/
def build {R : Type} (e : BuildEnv R) (ff : Forgefile) (name tag : String)
    (store : ImageStore) (rootfs0 : R) : Option (ImageStore × ImageManifest × ImageConfig) :=
  match runInstrs e ff.contextDir (initState store rootfs0) ff.instructions with
  | none => none
  | some st =>
      let m : ImageManifest := { name := name, tag := tag, layers := st.layers }
      some ((st.store.saveManifest m).saveConfig name tag st.config, m, st.config)

/-- The scratch rootfs directory used by every build. -/
def buildRootfsPath : String := "/tmp/container-build/rootfs"

/-- The COPY destination computation of the build loop:
`rootfs.join(dest.trim_start_matches("/"))`. -/
def copyDestPath (rootfsPath dest : String) : String :=
  rustJoin rootfsPath (trimStartMatchesSlash dest)

/-- Slash-separated path components, empty pieces dropped. -/
def pathComponents (s : String) : List String :=
  (strSplitOnChar (Char.ofNat 47) s).filter (· ≠ "")

/-- Resolve `.` and `..` components left to right. -/
def resolveAux (acc : List String) : List String → List String
  | [] => acc
  | c :: cs =>
      if c = "." then resolveAux acc cs
      else if c = ".." then resolveAux acc.dropLast cs
      else resolveAux (acc ++ [c]) cs

/-- Resolve a component list against the filesystem root. -/
def resolvePath (cs : List String) : List String := resolveAux [] cs

/-! ## The container lifecycle host side (`src/container.rs`)

In `run_container_from_image` (and `run_container`) the parent of the fork
waits on the child with `let _ = waitpid(child, None)`, discarding the wait
status, then cleans up and calls `process::exit(0)`; a failed fork logs and
calls `process::exit(1)`. -/

/-- The wait status of the container PID 1 as seen by `waitpid`. -/
inductive WaitStatus where
  | exited (code : Nat)
  | signaled (sig : Nat)
  deriving Repr, DecidableEq

/-- The outcome of the `fork()` call on the host. -/
inductive ForkOutcome where
  | ok (childStatus : WaitStatus)
  | err
  deriving Repr, DecidableEq

/-- The host-process exit code of `run_container_from_image` as a function of
the fork outcome and the child wait status. -/
def runContainerFromImageSupervisorExit : ForkOutcome → Nat
  | ForkOutcome.ok _ => 0
  | ForkOutcome.err => 1

/-! ## Cgroup setup (`src/cgroups.rs`)

The filesystem is modelled as a partial map from paths to file content;
`create_dir_all` marks the directory path present with empty content, and a
read of an absent path fails as `fs::read_to_string` does. -/

/-- A path-to-content view of the parts of the filesystem cgroup setup touches. -/
abbrev FileSys := String → Option String

/-- The `CGROUP_ROOT` constant. -/
def cgroupRootPath : String := "/sys/fs/cgroup"

/-- A successful `fs::write` (or `create_dir_all`) at a path. -/
def fsWrite (fs : FileSys) (p v : String) : FileSys :=
  fun q => if q = p then some v else fs q

/-- The probe `is_cgroup_v2`: the kernel file `cgroup.controllers` exists at the root. -/
def isCgroupV2 (fs : FileSys) : Bool :=
  (fs (cgroupRootPath ++ "/cgroup.controllers")).isSome

/-- The step `enable_controllers_v2`: read `cgroups.controllers` (note the spelling in
the source) and, only if that read succeeds, write the controller list to
`cgroup.subtree_control`. -/
def enableControllersV2 (fs : FileSys) : FileSys :=
  match fs (cgroupRootPath ++ "/cgroups.controllers") with
  | some _ => fsWrite fs (cgroupRootPath ++ "/cgroup.subtree_control") "+cpu +memory +pids"
  | none => fs

/-- The step `create_cgroup_hierarchy`: make the cgroup directory (v2) or the three
per-controller directories (v1); on v2 also try to enable subtree controllers. -/
def createCgroupHierarchy (fs : FileSys) (name : String) : FileSys :=
  if isCgroupV2 fs then
    enableControllersV2 (fsWrite fs (cgroupRootPath ++ "/" ++ name) "")
  else
    ["cpu", "memory", "pids"].foldl
      (fun f c => fsWrite f (cgroupRootPath ++ "/" ++ c ++ "/" ++ name) "") fs

/-! ## Concrete instances used to instantiate the theorems -/

/-- A trivial effect environment over a unit rootfs. -/
def envU : BuildEnv Unit :=
  { pullBase := fun _ _ => some (), runCmd := fun _ _ => some (),
    copyOp := fun _ _ _ => some (), hashPath := fun _ => "h",
    tarRootfs := fun _ => [], extractLayer := fun _ _ => () }

/-- A store with no layers, no index entries and no manifests. -/
def emptyStore : ImageStore :=
  { layers := fun _ => none, cacheIndex := fun _ => none, manifests := [], configs := [] }

/-- A store holding one layer under digest `sha256:d1`, indexed by key `k1`. -/
def hitStore : ImageStore :=
  { layers := fun q => if q = "sha256:d1" then some [1] else none
    cacheIndex := fun q => if q = "k1" then some "sha256:d1" else none
    manifests := [], configs := [] }

/-- A build state over `hitStore` with the cache still valid. -/
def hitState : BuildState Unit :=
  { store := hitStore, rootfs := (), layers := [], prevKey := "base",
    cacheValid := true, config := initConfig }

/-- The same build state after the cache has been invalidated. -/
def missState : BuildState Unit := { hitState with cacheValid := false }

/-- A fresh build state over the empty store. -/
def wState : BuildState Unit := initState emptyStore ()

/-- The build instantiated on a one-WORKDIR build file over the empty store. -/
def wBuildOut : Option (ImageStore × ImageManifest × ImageConfig) :=
  build envU { instructions := [Instruction.workdir "/w"], contextDir := "." } "n" "t"
    emptyStore ()

/-- A default triple for reading off `wBuildOut`. -/
def wBuildDflt : ImageStore × ImageManifest × ImageConfig :=
  (emptyStore, { name := "n", tag := "t", layers := [] }, initConfig)

/-- A minimal cgroup-v2 filesystem: the kernel file `cgroup.controllers`
exists, the misspelled `cgroups.controllers` does not. -/
def v2HostFs : FileSys :=
  fun p => if p = "/sys/fs/cgroup/cgroup.controllers" then some "cpuset cpu io memory pids"
           else none

/-- The metadata-only instructions: WORKDIR, ENV and ENTRYPOINT. -/
def isMetaInstr : Instruction → Bool
  | Instruction.workdir _ => true
  | Instruction.env _ _ => true
  | Instruction.entrypoint _ => true
  | _ => false

/-- The configuration update a metadata instruction performs. -/
def applyMetaConfig (c : ImageConfig) : Instruction → ImageConfig
  | Instruction.workdir p => { c with workingDir := p }
  | Instruction.env k v => { c with env := c.env ++ [k ++ "=" ++ v] }
  | Instruction.entrypoint args => { c with entrypoint := args }
  | _ => c

/-! ## Sanity checks of the SHA-256 embedding against the FIPS 180 vectors -/

/-- SHA-256 of the empty message matches the standard test vector. -/
theorem sha256_empty_vector :
    hexEncode (sha256 []) =
      "e3b0c44298fc1c149afbf4c8996fb92427ae41e4649b934ca495991b7852b855" := by
  decide

/-- SHA-256 of the three-byte message abc matches the standard test vector. -/
theorem sha256_abc_vector :
    hexEncode (sha256 (strBytes "abc")) =
      "ba7816bf8f01cfea414140de5dae2223b00361a396177a9cb410ff61f20015ad" := by
  decide

/-! ## Lemmas about the cache test and the build loop -/

/-- Characterisation of a cache hit: the flag, the index entry and the layer
file must all line up. -/
theorem cacheHit_some_iff {R : Type} (st : BuildState R) (k d : String) :
    cacheHit st k = some d ↔
      st.cacheValid = true ∧ st.store.getCachedLayer k = some d
        ∧ st.store.layerExists d = true := by
  unfold cacheHit
  cases hv : st.cacheValid with
  | false => simp
  | true =>
      simp only [if_true, true_and]
      cases hg : st.store.getCachedLayer k with
      | none => simp
      | some d0 =>
          by_cases he : st.store.layerExists d0 = true
          · simp only [he, if_pos rfl]
            constructor
            · rintro h; cases h; exact ⟨rfl, he⟩
            · rintro ⟨h, _⟩; cases h; rfl
          · simp only [Bool.not_eq_true] at he
            simp [he]
            rintro rfl
            simp [he]

/-- A cleared `cache_valid` flag forces a miss. -/
theorem cacheHit_of_invalid {R : Type} (st : BuildState R) (k : String)
    (hv : st.cacheValid = false) : cacheHit st k = none := by
  unfold cacheHit
  rw [hv]
  rfl

/-- On a hit, the layered arm extracts the cached layer, appends its digest,
and moves the key forward; the store and the flag are untouched. -/
theorem execLayered_hit {R : Type} (e : BuildEnv R) (st : BuildState R) (k : String)
    (eff : R → Option R) (d : String) (h : cacheHit st k = some d) :
    execLayered e st k eff = some { st with
      rootfs := e.extractLayer ((st.store.layers d).getD []) st.rootfs
      layers := st.layers ++ [d]
      prevKey := k } := by
  unfold execLayered
  rw [h]

/-- Inversion for the layered arm: a successful step is either a hit step or a
miss step of the recorded shape. -/
theorem execLayered_some_inv {R : Type} (e : BuildEnv R) (st : BuildState R) (k : String)
    (eff : R → Option R) (st' : BuildState R) (h : execLayered e st k eff = some st') :
    (∃ d, cacheHit st k = some d ∧ st' = { st with
        rootfs := e.extractLayer ((st.store.layers d).getD []) st.rootfs
        layers := st.layers ++ [d]
        prevKey := k })
    ∨ (cacheHit st k = none ∧ ∃ rf, eff st.rootfs = some rf ∧ st' = { st with
        cacheValid := false
        rootfs := rf
        store := (st.store.saveLayer (e.tarRootfs rf)).1.cacheLayer k
                   (st.store.saveLayer (e.tarRootfs rf)).2
        layers := st.layers ++ [(st.store.saveLayer (e.tarRootfs rf)).2]
        prevKey := k }) := by
  unfold execLayered at h
  cases hm : cacheHit st k with
  | some d =>
      rw [hm] at h
      exact Or.inl ⟨d, rfl, (Option.some.inj h).symm⟩
  | none =>
      rw [hm] at h
      cases he : eff st.rootfs with
      | none => rw [he] at h; cases h
      | some rf =>
          rw [he] at h
          exact Or.inr ⟨rfl, rf, rfl, (Option.some.inj h).symm⟩

/-- The layered arm always moves the key chain to the computed key. -/
theorem execLayered_prevKey {R : Type} (e : BuildEnv R) (st : BuildState R) (k : String)
    (eff : R → Option R) (st' : BuildState R) (h : execLayered e st k eff = some st') :
    st'.prevKey = k := by
  rcases execLayered_some_inv e st k eff st' h with ⟨d, _, rfl⟩ | ⟨_, rf, _, rfl⟩ <;> rfl

/-- A miss clears the `cache_valid` flag. -/
theorem execLayered_cacheValid_of_miss {R : Type} (e : BuildEnv R) (st : BuildState R)
    (k : String) (eff : R → Option R) (st' : BuildState R) (hm : cacheHit st k = none)
    (h : execLayered e st k eff = some st') : st'.cacheValid = false := by
  rcases execLayered_some_inv e st k eff st' h with ⟨d, hd, rfl⟩ | ⟨_, rf, _, rfl⟩
  · rw [hd] at hm; cases hm
  · rfl

/-- Every successful step moves `prev_cache_key` to the chained key of its
instruction descriptor. -/
theorem stepInstr_prevKey {R : Type} (e : BuildEnv R) (ctx : String) (st : BuildState R)
    (i : Instruction) (st' : BuildState R) (h : stepInstr e ctx st i = some st') :
    st'.prevKey = computeCacheKey st.prevKey (instrDescriptor e ctx i) := by
  cases i with
  | from_ image => exact execLayered_prevKey e st _ _ st' h
  | copy src dest => exact execLayered_prevKey e st _ _ st' h
  | run command => exact execLayered_prevKey e st _ _ st' h
  | workdir p => cases Option.some.inj h; rfl
  | env k v => cases Option.some.inj h; rfl
  | entrypoint args => cases Option.some.inj h; rfl

/-- Once `cache_valid` is false, a step keeps it false. -/
theorem stepInstr_cacheValid_mono {R : Type} (e : BuildEnv R) (ctx : String)
    (st : BuildState R) (i : Instruction) (st' : BuildState R)
    (h : stepInstr e ctx st i = some st') (hv : st.cacheValid = false) :
    st'.cacheValid = false := by
  have layered : ∀ (k : String) (eff : R → Option R),
      execLayered e st k eff = some st' → st'.cacheValid = false := fun k eff hl =>
    execLayered_cacheValid_of_miss e st k eff st' (cacheHit_of_invalid st k hv) hl
  cases i with
  | from_ image => exact layered _ _ h
  | copy src dest => exact layered _ _ h
  | run command => exact layered _ _ h
  | workdir p => cases Option.some.inj h; exact hv
  | env k v => cases Option.some.inj h; exact hv
  | entrypoint args => cases Option.some.inj h; exact hv

/-- Saving a layer keeps every existing layer file. -/
theorem layerExists_saveLayer (st : ImageStore) (data : Bytes) (d : String)
    (h : st.layerExists d = true) : (st.saveLayer data).1.layerExists d = true := by
  unfold ImageStore.layerExists ImageStore.saveLayer at *
  by_cases hq : d = "sha256:" ++ hexEncode (sha256 data) <;> simp [hq, h]

/-- Saving a layer makes its own digest exist. -/
theorem saveLayer_self_exists (st : ImageStore) (data : Bytes) :
    (st.saveLayer data).1.layerExists (st.saveLayer data).2 = true := by
  unfold ImageStore.layerExists ImageStore.saveLayer
  simp

/-- Indexing with `cache_layer` does not touch the layer files. -/
theorem layerExists_cacheLayer (st : ImageStore) (k dg d : String) :
    (st.cacheLayer k dg).layerExists d = st.layerExists d := rfl

/-- A step never deletes a layer file. -/
theorem stepInstr_layerExists_mono {R : Type} (e : BuildEnv R) (ctx : String)
    (st : BuildState R) (i : Instruction) (st' : BuildState R)
    (h : stepInstr e ctx st i = some st') (d : String)
    (hd : st.store.layerExists d = true) : st'.store.layerExists d = true := by
  have layered : ∀ (k : String) (eff : R → Option R),
      execLayered e st k eff = some st' → st'.store.layerExists d = true := by
    intro k eff hl
    rcases execLayered_some_inv e st k eff st' hl with ⟨d0, _, rfl⟩ | ⟨_, rf, _, rfl⟩
    · exact hd
    · rw [layerExists_cacheLayer]
      exact layerExists_saveLayer st.store _ d hd
  cases i with
  | from_ image => exact layered _ _ h
  | copy src dest => exact layered _ _ h
  | run command => exact layered _ _ h
  | workdir p => cases Option.some.inj h; exact hd
  | env k v => cases Option.some.inj h; exact hd
  | entrypoint args => cases Option.some.inj h; exact hd

/-- A step preserves the invariant that every digest in `layers` has an
existing layer file. -/
theorem stepInstr_layers_inv {R : Type} (e : BuildEnv R) (ctx : String)
    (st : BuildState R) (i : Instruction) (st' : BuildState R)
    (h : stepInstr e ctx st i = some st')
    (hinv : ∀ d ∈ st.layers, st.store.layerExists d = true) :
    ∀ d ∈ st'.layers, st'.store.layerExists d = true := by
  have layered : ∀ (k : String) (eff : R → Option R),
      execLayered e st k eff = some st' →
        ∀ d ∈ st'.layers, st'.store.layerExists d = true := by
    intro k eff hl d hd
    rcases execLayered_some_inv e st k eff st' hl with ⟨d0, hhit, rfl⟩ | ⟨_, rf, _, rfl⟩
    · rcases List.mem_append.mp hd with hold | hnew
      · exact hinv d hold
      · cases List.mem_singleton.mp hnew
        exact ((cacheHit_some_iff st k _).mp hhit).2.2
    · rcases List.mem_append.mp hd with hold | hnew
      · rw [layerExists_cacheLayer]
        exact layerExists_saveLayer st.store _ d (hinv d hold)
      · cases List.mem_singleton.mp hnew
        rw [layerExists_cacheLayer]
        exact saveLayer_self_exists st.store _
  cases i with
  | from_ image => exact layered _ _ h
  | copy src dest => exact layered _ _ h
  | run command => exact layered _ _ h
  | workdir p => cases Option.some.inj h; exact hinv
  | env k v => cases Option.some.inj h; exact hinv
  | entrypoint args => cases Option.some.inj h; exact hinv

/-- The whole loop keeps `cache_valid` false once it is false. -/
theorem runInstrs_cacheValid_mono {R : Type} (e : BuildEnv R) (ctx : String)
    (st : BuildState R) (instrs : List Instruction) (st' : BuildState R)
    (h : runInstrs e ctx st instrs = some st') (hv : st.cacheValid = false) :
    st'.cacheValid = false := by
  induction instrs generalizing st with
  | nil => simp only [runInstrs] at h; cases Option.some.inj h; exact hv
  | cons i rest ih =>
      simp only [runInstrs] at h
      cases hs : stepInstr e ctx st i with
      | none => rw [hs] at h; cases h
      | some st1 =>
          rw [hs] at h
          exact ih st1 h (stepInstr_cacheValid_mono e ctx st i st1 hs hv)

/-- The whole loop realises the chained-key fold over the descriptors. -/
theorem runInstrs_prevKey {R : Type} (e : BuildEnv R) (ctx : String)
    (st : BuildState R) (instrs : List Instruction) (st' : BuildState R)
    (h : runInstrs e ctx st instrs = some st') :
    st'.prevKey = instrs.foldl
      (fun p i => computeCacheKey p (instrDescriptor e ctx i)) st.prevKey := by
  induction instrs generalizing st with
  | nil => simp only [runInstrs] at h; cases Option.some.inj h; rfl
  | cons i rest ih =>
      simp only [runInstrs] at h
      cases hs : stepInstr e ctx st i with
      | none => rw [hs] at h; cases h
      | some st1 =>
          rw [hs] at h
          rw [List.foldl_cons, ← stepInstr_prevKey e ctx st i st1 hs]
          exact ih st1 h

/-- The whole loop preserves the layers-exist invariant. -/
theorem runInstrs_layers_inv {R : Type} (e : BuildEnv R) (ctx : String)
    (st : BuildState R) (instrs : List Instruction) (st' : BuildState R)
    (h : runInstrs e ctx st instrs = some st')
    (hinv : ∀ d ∈ st.layers, st.store.layerExists d = true) :
    ∀ d ∈ st'.layers, st'.store.layerExists d = true := by
  induction instrs generalizing st with
  | nil => simp only [runInstrs] at h; cases Option.some.inj h; exact hinv
  | cons i rest ih =>
      simp only [runInstrs] at h
      cases hs : stepInstr e ctx st i with
      | none => rw [hs] at h; cases h
      | some st1 =>
          rw [hs] at h
          exact ih st1 h (stepInstr_layers_inv e ctx st i st1 hs hinv)

/-- A run of metadata-only instructions succeeds, touches only the config and
the key chain, and folds the config updates in order. -/
theorem runInstrs_meta {R : Type} (e : BuildEnv R) (ctx : String) (st : BuildState R)
    (instrs : List Instruction) (hmeta : ∀ i ∈ instrs, isMetaInstr i = true) :
    ∃ st', runInstrs e ctx st instrs = some st'
      ∧ st'.store = st.store ∧ st'.rootfs = st.rootfs ∧ st'.layers = st.layers
      ∧ st'.cacheValid = st.cacheValid
      ∧ st'.config = instrs.foldl applyMetaConfig st.config := by
  induction instrs generalizing st with
  | nil => exact ⟨st, rfl, rfl, rfl, rfl, rfl, rfl⟩
  | cons i rest ih =>
      have hi : isMetaInstr i = true := hmeta i (List.mem_cons_self i rest)
      have hrest : ∀ j ∈ rest, isMetaInstr j = true :=
        fun j hj => hmeta j (List.mem_cons_of_mem i hj)
      cases i with
      | from_ image => cases hi
      | copy src dest => cases hi
      | run command => cases hi
      | workdir p =>
          obtain ⟨st', h1, h2, h3, h4, h5, h6⟩ :=
            ih { st with config := { st.config with workingDir := p }
                         prevKey := computeCacheKey st.prevKey ("WORKDIR:" ++ p) } hrest
          exact ⟨st', h1, h2, h3, h4, h5, h6⟩
      | env k v =>
          obtain ⟨st', h1, h2, h3, h4, h5, h6⟩ :=
            ih { st with config := { st.config with env := st.config.env ++ [k ++ "=" ++ v] }
                         prevKey := computeCacheKey st.prevKey ("ENV:" ++ k ++ "=" ++ v) } hrest
          exact ⟨st', h1, h2, h3, h4, h5, h6⟩
      | entrypoint args =>
          obtain ⟨st', h1, h2, h3, h4, h5, h6⟩ :=
            ih { st with config := { st.config with entrypoint := args }
                         prevKey := computeCacheKey st.prevKey ("ENTRYPOINT:" ++ rustDebugList args) } hrest
          exact ⟨st', h1, h2, h3, h4, h5, h6⟩

/-! ## The claims -/

/-- C1: the cache-key chain is seeded with the literal string `base`, and every
instruction, including WORKDIR, ENV and ENTRYPOINT, advances it: the next key
is `cache:` followed by the lowercase hex SHA-256 of the previous key bytes
concatenated with the instruction descriptor bytes, the descriptors being
FROM:<i>, COPY:<s>:<d>:<content-hash>, RUN:<c>, WORKDIR:<p>, ENV:<k>=<v> and
ENTRYPOINT:<debug-rendered args>. -/
theorem C1_cache_key_chain :
    (∀ p d : String,
        computeCacheKey p d = "cache:" ++ hexEncode (sha256 (strBytes p ++ strBytes d)))
    ∧ (∀ (R : Type) (store : ImageStore) (r0 : R), (initState store r0).prevKey = "base")
    ∧ (∀ (R : Type) (e : BuildEnv R) (ctx : String) (st : BuildState R) (i : Instruction)
        (st' : BuildState R), stepInstr e ctx st i = some st' →
          st'.prevKey = computeCacheKey st.prevKey (instrDescriptor e ctx i))
    ∧ (∀ (R : Type) (e : BuildEnv R) (ctx : String) (st : BuildState R)
        (instrs : List Instruction) (st' : BuildState R),
        runInstrs e ctx st instrs = some st' →
          st'.prevKey = instrs.foldl
            (fun p i => computeCacheKey p (instrDescriptor e ctx i)) st.prevKey) :=
  ⟨fun _ _ => rfl, fun _ _ _ => rfl,
   fun _ e ctx st i st' h => stepInstr_prevKey e ctx st i st' h,
   fun _ e ctx st instrs st' h => runInstrs_prevKey e ctx st instrs st' h⟩

/-- Witness for C1: a concrete WORKDIR step and a concrete one-ENV run. -/
theorem C1_cache_key_chain_witness :
    ((stepInstr envU "." wState (Instruction.workdir "/w")).getD wState).prevKey
        = computeCacheKey wState.prevKey (instrDescriptor envU "." (Instruction.workdir "/w"))
    ∧ ((runInstrs envU "." wState [Instruction.env "A" "B"]).getD wState).prevKey
        = [Instruction.env "A" "B"].foldl
            (fun p i => computeCacheKey p (instrDescriptor envU "." i)) wState.prevKey :=
  ⟨C1_cache_key_chain.2.2.1 Unit envU "." wState (Instruction.workdir "/w") _ rfl,
   C1_cache_key_chain.2.2.2 Unit envU "." wState [Instruction.env "A" "B"] _ rfl⟩

/-- C2: a layered instruction reuses a cached layer exactly when `cache_valid`
holds, the index maps its key to a digest, and that digest's layer file exists;
a dangling index entry or a cleared flag is a miss, any miss clears the flag,
and once cleared the flag stays cleared for the rest of the build. -/
theorem C2_cache_reuse_semantics :
    (∀ (R : Type) (st : BuildState R) (k d : String),
        cacheHit st k = some d ↔ st.cacheValid = true
          ∧ st.store.getCachedLayer k = some d ∧ st.store.layerExists d = true)
    ∧ (∀ (R : Type) (e : BuildEnv R) (st : BuildState R) (k : String)
        (eff : R → Option R) (d : String), cacheHit st k = some d →
          execLayered e st k eff = some { st with
            rootfs := e.extractLayer ((st.store.layers d).getD []) st.rootfs
            layers := st.layers ++ [d]
            prevKey := k })
    ∧ (∀ (R : Type) (e : BuildEnv R) (st : BuildState R) (k : String)
        (eff : R → Option R) (st' : BuildState R),
        cacheHit st k = none → execLayered e st k eff = some st' →
          st'.cacheValid = false)
    ∧ (∀ (R : Type) (st : BuildState R) (k : String),
        st.cacheValid = false → cacheHit st k = none)
    ∧ (∀ (R : Type) (e : BuildEnv R) (ctx : String) (st : BuildState R)
        (instrs : List Instruction) (st' : BuildState R),
        runInstrs e ctx st instrs = some st' → st.cacheValid = false →
          st'.cacheValid = false) :=
  ⟨fun _ st k d => cacheHit_some_iff st k d,
   fun _ e st k eff d h => execLayered_hit e st k eff d h,
   fun _ e st k eff st' hm h => execLayered_cacheValid_of_miss e st k eff st' hm h,
   fun _ st k hv => cacheHit_of_invalid st k hv,
   fun _ e ctx st instrs st' h hv => runInstrs_cacheValid_mono e ctx st instrs st' h hv⟩

/-- Witness for C2: a concrete hit, a concrete miss under a cleared flag, and a
concrete empty run from an invalid state. -/
theorem C2_cache_reuse_semantics_witness :
    execLayered envU hitState "k1" (fun _ => some ()) = some { hitState with
        rootfs := envU.extractLayer ((hitState.store.layers "sha256:d1").getD []) hitState.rootfs
        layers := hitState.layers ++ ["sha256:d1"]
        prevKey := "k1" }
    ∧ ((execLayered envU missState "k1" (fun _ => some ())).getD missState).cacheValid = false
    ∧ cacheHit missState "k1" = none
    ∧ ((runInstrs envU "." missState []).getD missState).cacheValid = false :=
  ⟨C2_cache_reuse_semantics.2.1 Unit envU hitState "k1" (fun _ => some ()) "sha256:d1" (by decide),
   C2_cache_reuse_semantics.2.2.1 Unit envU missState "k1" (fun _ => some ()) _ (by decide) rfl,
   C2_cache_reuse_semantics.2.2.2.1 Unit missState "k1" rfl,
   C2_cache_reuse_semantics.2.2.2.2 Unit envU "." missState [] _ rfl rfl⟩

/-- C3: a successful build saves a manifest every one of whose layer digests
has an existing layer file in the resulting store. -/
theorem C3_saved_manifest_layers_exist :
    ∀ (R : Type) (e : BuildEnv R) (ff : Forgefile) (name tag : String)
      (store : ImageStore) (r0 : R) (outStore : ImageStore) (m : ImageManifest)
      (cfg : ImageConfig),
      build e ff name tag store r0 = some (outStore, m, cfg) →
        m ∈ outStore.manifests ∧ ∀ d ∈ m.layers, outStore.layerExists d = true := by
  intro R e ff name tag store r0 outStore m cfg h
  unfold build at h
  cases hr : runInstrs e ff.contextDir (initState store r0) ff.instructions with
  | none => rw [hr] at h; cases h
  | some st =>
      rw [hr] at h
      have h' := Option.some.inj h
      have hstore : outStore
          = (st.store.saveManifest { name := name, tag := tag, layers := st.layers }).saveConfig
              name tag st.config := (congrArg Prod.fst h').symm
      have hm : m = { name := name, tag := tag, layers := st.layers } :=
        (congrArg (fun t => t.2.1) h').symm
      subst hstore
      subst hm
      constructor
      · exact List.mem_append_right _ (List.mem_singleton_self _)
      · intro d hd
        exact runInstrs_layers_inv e ff.contextDir (initState store r0) ff.instructions st hr
          (fun d0 hd0 => absurd hd0 (List.not_mem_nil d0)) d hd

/-- Witness for C3 on the concrete one-WORKDIR build. -/
theorem C3_saved_manifest_layers_exist_witness :
    (wBuildOut.getD wBuildDflt).2.1 ∈ (wBuildOut.getD wBuildDflt).1.manifests
    ∧ ∀ d ∈ (wBuildOut.getD wBuildDflt).2.1.layers,
        (wBuildOut.getD wBuildDflt).1.layerExists d = true :=
  C3_saved_manifest_layers_exist Unit envU
    { instructions := [Instruction.workdir "/w"], contextDir := "." } "n" "t" emptyStore ()
    (wBuildOut.getD wBuildDflt).1 (wBuildOut.getD wBuildDflt).2.1
    (wBuildOut.getD wBuildDflt).2.2 rfl

/-- C4 counterexample: the supervisor exit code does not reflect whether the
child exited cleanly; after a successful fork the host exits 0 even when the
child's wait status is a nonzero exit. -/
theorem C4_exit_reflects_child_counterexample :
    runContainerFromImageSupervisorExit (ForkOutcome.ok (WaitStatus.exited 1)) = 0
    ∧ WaitStatus.exited 1 ≠ WaitStatus.exited 0 :=
  ⟨rfl, by decide⟩

/-- C4 amended: the host exits 1 when a fatal step (the fork) fails, and after
a successful fork it always exits 0 once the child has been waited on,
whatever the child's wait status was. -/
theorem C4_supervisor_exit_amended :
    (∀ s : WaitStatus, runContainerFromImageSupervisorExit (ForkOutcome.ok s) = 0)
    ∧ runContainerFromImageSupervisorExit ForkOutcome.err = 1 :=
  ⟨fun _ => rfl, rfl⟩

/-- C5: a COPY line with fewer than two argument tokens, and an ENV line with
no equals sign, make `parse_command_line` return an error, but
`Forgefile::parse` matches only `Ok(Some(_))` and silently discards the error,
so the malformed lines are skipped and parsing the file succeeds instead of
aborting the build. -/
theorem C5_parse_errors_swallowed :
    parseCommandLine "COPY" "onlyone" = Except.error "COPY requires source and destination"
    ∧ parseCommandLine "ENV" "NOEQ" = Except.error "ENV requires KEY=VALUE format"
    ∧ (Forgefile.parseContent "FROM alpine\nCOPY onlyone\nENV NOEQ\nRUN ok" ".").instructions
        = [Instruction.from_ "alpine", Instruction.run "ok"] :=
  ⟨rfl, rfl, by decide⟩

/-- C6 counterexample: parsing the line with two spaces after ENV does not give
key FOO; the second space stays in the arguments and becomes part of the key. -/
theorem C6_env_example_counterexample :
    (Forgefile.parseContent "ENV  FOO=bar=baz" ".").instructions
      = [Instruction.env " FOO" "bar=baz"]
    ∧ Instruction.env " FOO" "bar=baz" ≠ Instruction.env "FOO" "bar=baz" :=
  ⟨by decide, by decide⟩

/-- C6 amended: ENV arguments are split on the first equals sign into exactly a
key and a value; the line with two spaces after ENV is split at the first
space, so the arguments keep the second space and the result is key
quote-space-FOO (with the leading space), value bar=baz. -/
theorem C6_env_first_equals_amended :
    (∀ args k v : String, splitn2 (Char.ofNat 61) args = [k, v] →
        parseCommandLine "ENV" args = Except.ok (some (Instruction.env k v)))
    ∧ (Forgefile.parseContent "ENV  FOO=bar=baz" ".").instructions
        = [Instruction.env " FOO" "bar=baz"] := by
  constructor
  · intro args k v h
    have hred : parseCommandLine "ENV" args =
        match splitn2 (Char.ofNat 61) args with
        | [k, v] => Except.ok (some (Instruction.env k v))
        | _ => Except.error "ENV requires KEY=VALUE format" := rfl
    rw [hred, h]
  · decide

/-- Witness for C6 at the concrete argument string A=b=c. -/
theorem C6_env_first_equals_amended_witness :
    parseCommandLine "ENV" "A=b=c" = Except.ok (some (Instruction.env "A" "b=c")) :=
  C6_env_first_equals_amended.1 "A=b=c" "A" "b=c" (by decide)

/-- C7: `save_layer` returns `sha256:` plus the lowercase hex SHA-256 of the
tarball bytes, stores the bytes under that digest, and saving the same bytes a
second time returns the same digest and leaves the store unchanged. -/
theorem C7_save_layer_idempotent :
    ∀ (st : ImageStore) (data : Bytes),
      (st.saveLayer data).2 = "sha256:" ++ hexEncode (sha256 data)
      ∧ (st.saveLayer data).1.layers ((st.saveLayer data).2) = some data
      ∧ (st.saveLayer data).1.saveLayer data = st.saveLayer data := by
  intro st data
  refine ⟨rfl, ?_, ?_⟩
  · unfold ImageStore.saveLayer
    simp
  · have hfun : (fun q => if q = "sha256:" ++ hexEncode (sha256 data) then some data
          else (if q = "sha256:" ++ hexEncode (sha256 data) then some data else st.layers q))
        = (fun q => if q = "sha256:" ++ hexEncode (sha256 data) then some data
            else st.layers q) := by
      funext q
      by_cases hq : q = "sha256:" ++ hexEncode (sha256 data) <;> simp [hq]
    exact congrArg
      (fun f => ((ImageStore.mk f st.cacheIndex st.manifests st.configs : ImageStore),
        "sha256:" ++ hexEncode (sha256 data))) hfun

/-- C9: on a cgroup-v2 host the setup never writes `cgroup.subtree_control`:
the source guards the write behind a read of the misspelled path
`cgroups.controllers`, which fails, so the subtree file stays absent. -/
theorem C9_subtree_control_never_written :
    isCgroupV2 v2HostFs = true
    ∧ createCgroupHierarchy v2HostFs "c1" "/sys/fs/cgroup/cgroup.subtree_control" = none :=
  ⟨by decide, by decide⟩

/-- Splitting never produces the empty list of pieces. -/
theorem splitOnPred_ne_nil (p : Char → Bool) (l : List Char) : splitOnPred p l ≠ [] := by
  cases l with
  | nil => simp [splitOnPred]
  | cons c cs =>
      unfold splitOnPred
      cases hsp : splitOnPred p cs with
      | nil => simp
      | cons h t => by_cases hc : p c <;> simp [hc]

/-- One unfolding step of `splitOnPred`. -/
theorem splitOnPred_cons (p : Char → Bool) (c : Char) (cs : List Char) :
    splitOnPred p (c :: cs)
      = match splitOnPred p cs with
        | [] => [[c]]
        | h :: t => if p c then [] :: h :: t else (c :: h) :: t := rfl

/-- Splitting around one separator concatenates the two splits. -/
theorem splitOnPred_append_sep (p : Char → Bool) (sep : Char) (hp : p sep = true)
    (xs ys : List Char) :
    splitOnPred p (xs ++ sep :: ys) = splitOnPred p xs ++ splitOnPred p ys := by
  induction xs with
  | nil =>
      simp only [List.nil_append]
      rw [splitOnPred_cons]
      cases hsp : splitOnPred p ys with
      | nil => exact absurd hsp (splitOnPred_ne_nil p ys)
      | cons h t => simp [splitOnPred, hp]
  | cons c cs ih =>
      simp only [List.cons_append]
      rw [splitOnPred_cons, splitOnPred_cons, ih]
      cases hsp : splitOnPred p cs with
      | nil => exact absurd hsp (splitOnPred_ne_nil p cs)
      | cons h t =>
          cases hsy : splitOnPred p ys with
          | nil => exact absurd hsy (splitOnPred_ne_nil p ys)
          | cons hy ty => by_cases hc : p c <;> simp [hc]

/-- Stripping leading slashes leaves a string that does not start with one. -/
theorem trimStartMatchesSlash_not_slash (s : String) :
    strStartsWithChar (Char.ofNat 47) (trimStartMatchesSlash s) = false := by
  unfold trimStartMatchesSlash strStartsWithChar
  induction s.data with
  | nil => rfl
  | cons c cs ih =>
      by_cases hc : c = Char.ofNat 47
      · rw [List.dropWhile_cons_of_pos (by simp [hc])]
        exact ih
      · rw [List.dropWhile_cons_of_neg (by simp [hc])]
        simp [hc]

/-- Path components are unchanged by stripping leading slashes. -/
theorem pathComponents_trim (s : String) :
    pathComponents (trimStartMatchesSlash s) = pathComponents s := by
  unfold pathComponents strSplitOnChar splitOnChar trimStartMatchesSlash
  induction s.data with
  | nil => rfl
  | cons c cs ih =>
      by_cases hc : c = Char.ofNat 47
      · rw [List.dropWhile_cons_of_pos (by simp [hc])]
        rw [ih, splitOnPred_cons]
        cases hsp : splitOnPred (· = Char.ofNat 47) cs with
        | nil => exact absurd hsp (splitOnPred_ne_nil _ cs)
        | cons h t => simp [hc]
      · rw [List.dropWhile_cons_of_neg (by simp [hc])]

/-- Resolving a concatenation resolves the two parts in sequence. -/
theorem resolveAux_append (acc xs ys : List String) :
    resolveAux acc (xs ++ ys) = resolveAux (resolveAux acc xs) ys := by
  induction xs generalizing acc with
  | nil => rfl
  | cons c cs ih =>
      simp only [List.cons_append, resolveAux]
      by_cases h1 : c = "."
      · simp [h1, ih]
      · by_cases h2 : c = ".."
        · simp [h1, h2, ih]
        · simp [h1, h2, ih]

/-- Without parent-directory components, resolution never escapes a prefix. -/
theorem resolveAux_prefix (pre acc l : List String) (hl : ".." ∉ l)
    (hp : pre <+: acc) : pre <+: resolveAux acc l := by
  induction l generalizing acc with
  | nil => exact hp
  | cons c cs ih =>
      have hc2 : c ≠ ".." := fun h => hl (h ▸ List.mem_cons_self c cs)
      have hcs : ".." ∉ cs := fun h => hl (List.mem_cons_of_mem c h)
      simp only [resolveAux]
      by_cases h1 : c = "."
      · rw [if_pos h1]
        exact ih acc hcs hp
      · rw [if_neg h1, if_neg hc2]
        exact ih (acc ++ [c]) hcs (hp.trans (List.prefix_append acc [c]))

/-- The splice of path components across the join of base and relative path. -/
theorem pathComponents_append_slash (a b : String) :
    pathComponents (a ++ "/" ++ b) = pathComponents a ++ pathComponents b := by
  unfold pathComponents strSplitOnChar splitOnChar
  have hdata : (a ++ "/" ++ b).data = a.data ++ (Char.ofNat 47) :: b.data := by
    cases a with
    | mk la =>
        cases b with
        | mk lb => simp [String.instAppend, String.append]
  rw [hdata, splitOnPred_append_sep _ _ (by simp) a.data b.data, List.map_append,
    List.filter_append]

/-- C10: COPY destinations are joined under the scratch rootfs after stripping
leading slashes, so an absolute destination like /app.txt lands inside the
rootfs, and any destination without parent-directory components resolves to a
path inside the scratch rootfs. -/
theorem C10_copy_dest_confined :
    copyDestPath buildRootfsPath "/app.txt" = "/tmp/container-build/rootfs/app.txt"
    ∧ (∀ dest : String,
        copyDestPath buildRootfsPath dest = buildRootfsPath ++ "/" ++ trimStartMatchesSlash dest)
    ∧ (∀ dest : String, ".." ∉ pathComponents dest →
        pathComponents buildRootfsPath
          <+: resolvePath (pathComponents (copyDestPath buildRootfsPath dest))) := by
  have hjoin : ∀ dest : String,
      copyDestPath buildRootfsPath dest
        = buildRootfsPath ++ "/" ++ trimStartMatchesSlash dest := by
    intro dest
    unfold copyDestPath rustJoin
    simp [trimStartMatchesSlash_not_slash]
  refine ⟨by decide, hjoin, ?_⟩
  intro dest hdd
  rw [hjoin dest, pathComponents_append_slash, pathComponents_trim]
  unfold resolvePath
  rw [resolveAux_append]
  have hbase : resolveAux [] (pathComponents buildRootfsPath)
      = pathComponents buildRootfsPath := by decide
  rw [hbase]
  exact resolveAux_prefix _ _ _ hdd (List.prefix_refl _)

/-- Witness for C10 at the concrete absolute destination /app.txt. -/
theorem C10_copy_dest_confined_witness :
    pathComponents buildRootfsPath
      <+: resolvePath (pathComponents (copyDestPath buildRootfsPath "/app.txt")) :=
  C10_copy_dest_confined.2.2 "/app.txt" (by decide)

/-- C8: WORKDIR, ENV and ENTRYPOINT only update the in-progress config (the
working directory is replaced, an env entry appended, the entrypoint replaced)
and advance the key chain; store, rootfs, layer list and cache flag are
untouched, and a build file of only such instructions yields a saved manifest
with zero layers and the folded config. -/
theorem C8_metadata_only_config :
    (∀ (R : Type) (e : BuildEnv R) (ctx : String) (st : BuildState R) (p : String),
        stepInstr e ctx st (Instruction.workdir p) = some { st with
          config := { st.config with workingDir := p }
          prevKey := computeCacheKey st.prevKey ("WORKDIR:" ++ p) })
    ∧ (∀ (R : Type) (e : BuildEnv R) (ctx : String) (st : BuildState R) (k v : String),
        stepInstr e ctx st (Instruction.env k v) = some { st with
          config := { st.config with env := st.config.env ++ [k ++ "=" ++ v] }
          prevKey := computeCacheKey st.prevKey ("ENV:" ++ k ++ "=" ++ v) })
    ∧ (∀ (R : Type) (e : BuildEnv R) (ctx : String) (st : BuildState R) (args : List String),
        stepInstr e ctx st (Instruction.entrypoint args) = some { st with
          config := { st.config with entrypoint := args }
          prevKey := computeCacheKey st.prevKey ("ENTRYPOINT:" ++ rustDebugList args) })
    ∧ (∀ (R : Type) (e : BuildEnv R) (ctx name tag : String) (store : ImageStore) (r0 : R)
        (instrs : List Instruction), (∀ i ∈ instrs, isMetaInstr i = true) →
        build e { instructions := instrs, contextDir := ctx } name tag store r0
          = some ((store.saveManifest { name := name, tag := tag, layers := [] }).saveConfig
                    name tag (instrs.foldl applyMetaConfig initConfig),
                  { name := name, tag := tag, layers := [] },
                  instrs.foldl applyMetaConfig initConfig)) := by
  refine ⟨fun _ _ _ _ _ => rfl, fun _ _ _ _ _ _ => rfl, fun _ _ _ _ _ => rfl, ?_⟩
  intro R e ctx name tag store r0 instrs hmeta
  obtain ⟨st', h1, hst, hroot, hlay, hflag, hcfg⟩ :=
    runInstrs_meta e ctx (initState store r0) instrs hmeta
  have hbuild : build e { instructions := instrs, contextDir := ctx } name tag store r0
      = match runInstrs e ctx (initState store r0) instrs with
        | none => none
        | some st => some
            ((st.store.saveManifest { name := name, tag := tag, layers := st.layers }).saveConfig
               name tag st.config,
             { name := name, tag := tag, layers := st.layers }, st.config) := rfl
  rw [hbuild, h1]
  have hst2 : st'.store = store := hst
  have hlay2 : st'.layers = ([] : List String) := hlay
  have hcfg2 : st'.config = instrs.foldl applyMetaConfig initConfig := hcfg
  show some
      ((st'.store.saveManifest { name := name, tag := tag, layers := st'.layers }).saveConfig
         name tag st'.config,
       ({ name := name, tag := tag, layers := st'.layers } : ImageManifest), st'.config)
    = some
      ((store.saveManifest { name := name, tag := tag, layers := [] }).saveConfig
         name tag (instrs.foldl applyMetaConfig initConfig),
       ({ name := name, tag := tag, layers := [] } : ImageManifest),
       instrs.foldl applyMetaConfig initConfig)
  rw [hst2, hlay2, hcfg2]

/-- Witness for C8 on a concrete metadata-only build file. -/
theorem C8_metadata_only_config_witness :
    build envU { instructions := [Instruction.workdir "/a", Instruction.env "K" "V",
        Instruction.entrypoint ["/bin/sh"]], contextDir := "." } "n" "t" emptyStore ()
      = some ((emptyStore.saveManifest { name := "n", tag := "t", layers := [] }).saveConfig
                "n" "t" ([Instruction.workdir "/a", Instruction.env "K" "V",
                  Instruction.entrypoint ["/bin/sh"]].foldl applyMetaConfig initConfig),
              { name := "n", tag := "t", layers := [] },
              [Instruction.workdir "/a", Instruction.env "K" "V",
                Instruction.entrypoint ["/bin/sh"]].foldl applyMetaConfig initConfig) :=
  C8_metadata_only_config.2.2.2 Unit envU "." "n" "t" emptyStore ()
    [Instruction.workdir "/a", Instruction.env "K" "V", Instruction.entrypoint ["/bin/sh"]]
    (by decide)

end Forge
